import Mathlib

/-!
Shallow embedding of the network transport core of the file-share server:
the TCP file-transfer engine (`app/network/tcp_server.py`), the multicast
radio broadcast engine (`app/network/multicast_server.py`) and the TCP
voice relay (`app/network/voice_server.py`).

Pure data and control flow are translated into executable Lean functions;
sockets are modelled by explicit input streams (lists of bytes) and by
event traces describing what the handler sends, writes and closes.
-/

set_option autoImplicit false

namespace FileShare

/-! ## Python values

A small model of the JSON/Python values that flow through the control
messages: `json.loads` produces one of these, `dict.get` returns `none`
for a missing key, and `if x:` tests Python truthiness. -/

inductive PyVal where
  | pynone
  | pybool (b : Bool)
  | pyint (n : Int)
  | pystr (s : String)
  | pylist (l : List PyVal)
  | pydict (d : List (String × PyVal))

namespace PyVal

/-- Python truthiness of a value (`if x:`). -/
def truthy : PyVal → Bool
  | pynone => false
  | pybool b => b
  | pyint n => n != 0
  | pystr s => s != ""
  | pylist l => !l.isEmpty
  | pydict d => !d.isEmpty

/-- First binding of key `k` in a dict, if any. -/
def dictFind (d : List (String × PyVal)) (k : String) : Option PyVal :=
  match d with
  | [] => none
  | (k', v) :: rest => if k' = k then some v else dictFind rest k

/-- `d.get(k)`: the first binding of `k`, else Python `None`. -/
def dictGet (d : List (String × PyVal)) (k : String) : PyVal :=
  (dictFind d k).getD pynone

/-- `d.get(k, default)`: the first binding of `k`, else `default`. -/
def dictGetD (d : List (String × PyVal)) (k : String) (dflt : PyVal) : PyVal :=
  (dictFind d k).getD dflt

/-- `int(x)` on the values a JSON control message can carry; raises
(`Except.error`) on values `int()` rejects. -/
def pyInt : PyVal → Except String Int
  | pyint n => .ok n
  | pybool b => .ok (if b then 1 else 0)
  | pystr s =>
    match s.toInt? with
    | some n => .ok n
    | none => .error "invalid literal for int()"
  | pynone => .error "int() argument must be a string, a bytes-like object or a real number, not NoneType"
  | _ => .error "int() argument is not convertible"

end PyVal

/-! ## POSIX paths, `pathlib` join and OS-level resolution

`save_path = UPLOAD_DIR / filename` (tcp_server.py line 60) and
`file_path = UPLOAD_DIR / filename` (line 80) use `pathlib`'s `/`:
the right operand is split on `/`; if it is absolute it replaces the
left operand entirely; `pathlib` itself does not resolve `..` or `.`,
the operating system does when the file is opened. -/

structure PyPath where
  absolute : Bool
  comps : List String
  deriving Repr, DecidableEq

/-- Split on `/` at the character level (mirrors `str.split("/")`). -/
def splitSlashAux (cur : List Char) (acc : List String) : List Char → List String
  | [] => (String.mk cur.reverse :: acc).reverse
  | c :: rest =>
    if c = '/' then splitSlashAux [] (String.mk cur.reverse :: acc) rest
    else splitSlashAux (c :: cur) acc rest

def splitSlash (s : String) : List String :=
  splitSlashAux [] [] s.data

/-- Parse a path string into `pathlib` parts: leading `/` marks an
absolute path, empty components (doubled slashes) are dropped. -/
def parsePathStr (s : String) : PyPath :=
  ⟨s.data.head? = some (Char.ofNat 47), (splitSlash s).filter (fun c => c ≠ "")⟩

/-- `pathlib`'s `/` operator: an absolute right operand replaces the
left operand, otherwise the parts are concatenated. -/
def pathJoin (a b : PyPath) : PyPath :=
  if b.absolute then b else ⟨a.absolute, a.comps ++ b.comps⟩

/-- OS-level resolution of `.` and `..` components, stack-based.
`stack` holds the already-resolved components in reverse order. -/
def normComps (absolute : Bool) (stack : List String) : List String → List String
  | [] => stack.reverse
  | c :: rest =>
    if c = "." then normComps absolute stack rest
    else if c = ".." then
      match stack with
      | [] =>
        -- at the root of an absolute path `..` is a no-op; at the head
        -- of a relative path it is kept
        if absolute then normComps absolute [] rest
        else normComps absolute [".."] rest
      | s :: tl =>
        if s = ".." then normComps absolute (".." :: s :: tl) rest
        else normComps absolute tl rest
    else normComps absolute (c :: stack) rest

/-- Resolve `.` and `..` components of a path. -/
def normalizePath (p : PyPath) : PyPath :=
  ⟨p.absolute, normComps p.absolute [] p.comps⟩

/-- Component-list refinement: `startsList a b` iff `a` is an initial
segment of `b`. -/
def startsList : List String → List String → Bool
  | [], _ => true
  | _ :: _, [] => false
  | x :: xs, y :: ys => x = y && startsList xs ys

/-- After OS resolution, `p` designates a location inside `root`. -/
def isUnder (root p : PyPath) : Bool :=
  ((normalizePath root).absolute == (normalizePath p).absolute) &&
    startsList (normalizePath root).comps (normalizePath p).comps

/-- `settings.UPLOAD_DIR` default: `"static/uploads"` (config.py). -/
def UPLOAD_DIR : PyPath := parsePathStr "static/uploads"

/-- `save_path = UPLOAD_DIR / filename` (tcp_server.py line 60). -/
def uploadSavePath (root : PyPath) (filename : String) : PyPath :=
  pathJoin root (parsePathStr filename)

/-! ## The UPLOAD receive loop (tcp_server.py lines 60-76)

The peer's socket is modelled by the list `s` of bytes it will send
before closing, plus a schedule `sched` of how many bytes the OS hands
over per `recv` call (TCP may deliver fewer bytes than requested; any
delivery pattern is some schedule).  `recv(m)` returns between 1 and
`m` bytes while the stream is nonempty and `b""` once it is exhausted. -/

/-- `BUFFER_SIZE = 4096`. -/
def BUFFER_SIZE : Nat := 4096

/-- The number of bytes the `conn.recv(min(BUFFER_SIZE, filesize - received))`
call yields from the nonempty stream `s` under schedule entry `g`: at
least 1, at most the requested amount, at most what is available. -/
def grantSize (filesize received : Nat) (s : List Nat) (g : Nat) : Nat :=
  min (min BUFFER_SIZE (filesize - received)) (min (g + 1) s.length)

theorem grantSize_pos (filesize received : Nat) (b : Nat) (rest : List Nat)
    (g : Nat) (h : received < filesize) :
    1 ≤ grantSize filesize received (b :: rest) g := by
  simp [grantSize, BUFFER_SIZE]
  omega

theorem grantSize_le (filesize received : Nat) (s : List Nat) (g : Nat) :
    grantSize filesize received s g ≤ filesize - received ∧
    grantSize filesize received s g ≤ BUFFER_SIZE ∧
    grantSize filesize received s g ≤ s.length := by
  simp [grantSize]

/--
```
while received < filesize:
    chunk = conn.recv(min(BUFFER_SIZE, filesize - received))
    if not chunk: break
    f.write(chunk)
    received += len(chunk)
```
Returns the final `received` count and the list of chunks written to
the file, given the declared `filesize`, the running count, the bytes
the peer sends before closing and the per-call delivery schedule.
-/
def uploadLoop (filesize received : Nat) (s sched : List Nat) :
    Nat × List (List Nat) :=
  if _hlt : received < filesize then
    match s with
    | [] => (received, [])          -- recv returned b"": peer closed early
    | b :: rest =>
      let n := grantSize filesize received (b :: rest) (sched.headD BUFFER_SIZE)
      let res := uploadLoop filesize (received + n) ((b :: rest).drop n) sched.tail
      (res.1, (b :: rest).take n :: res.2)
  else
    (received, [])
termination_by s.length
decreasing_by
  simp only [List.length_drop, List.length_cons]
  have hn := grantSize_pos filesize received b rest (sched.headD BUFFER_SIZE) _hlt
  omega

theorem uploadLoop_stop (filesize received : Nat) (s sched : List Nat)
    (h : ¬ received < filesize) :
    uploadLoop filesize received s sched = (received, []) := by
  rw [uploadLoop.eq_def]
  simp [h]

theorem uploadLoop_nil (filesize received : Nat) (sched : List Nat) :
    uploadLoop filesize received [] sched = (received, []) := by
  rw [uploadLoop.eq_def]
  split <;> rfl

theorem uploadLoop_cons (filesize received : Nat) (b : Nat) (rest sched : List Nat)
    (h : received < filesize) :
    uploadLoop filesize received (b :: rest) sched =
      ((uploadLoop filesize
          (received + grantSize filesize received (b :: rest) (sched.headD BUFFER_SIZE))
          ((b :: rest).drop (grantSize filesize received (b :: rest) (sched.headD BUFFER_SIZE)))
          sched.tail).1,
        (b :: rest).take (grantSize filesize received (b :: rest) (sched.headD BUFFER_SIZE)) ::
          (uploadLoop filesize
            (received + grantSize filesize received (b :: rest) (sched.headD BUFFER_SIZE))
            ((b :: rest).drop (grantSize filesize received (b :: rest) (sched.headD BUFFER_SIZE)))
            sched.tail).2) := by
  rw [uploadLoop.eq_def]
  simp [h]

theorem uploadLoop_received_ge (filesize received : Nat) (s sched : List Nat) :
    received ≤ (uploadLoop filesize received s sched).1 := by
  induction received, s, sched using uploadLoop.induct filesize with
  | case1 received sched h =>
    rw [uploadLoop_nil]
  | case2 received sched h b rest n ih =>
    rw [uploadLoop_cons filesize received b rest sched h]
    unfold n at ih
    omega
  | case3 received s sched h =>
    rw [uploadLoop_stop filesize received s sched h]

theorem uploadLoop_received_le (filesize received : Nat) (s sched : List Nat)
    (hr : received ≤ filesize) :
    (uploadLoop filesize received s sched).1 ≤ filesize := by
  induction received, s, sched using uploadLoop.induct filesize with
  | case1 received sched h =>
    rw [uploadLoop_nil]
    exact hr
  | case2 received sched h b rest n ih =>
    rw [uploadLoop_cons filesize received b rest sched h]
    have hle := (grantSize_le filesize received (b :: rest) (sched.headD BUFFER_SIZE)).1
    unfold n at ih
    exact ih (by omega)
  | case3 received s sched h =>
    rw [uploadLoop_stop filesize received s sched h]
    exact hr

theorem uploadLoop_chunk_le (filesize received : Nat) (s sched : List Nat) :
    ∀ c ∈ (uploadLoop filesize received s sched).2, c.length ≤ BUFFER_SIZE := by
  induction received, s, sched using uploadLoop.induct filesize with
  | case1 received sched h =>
    rw [uploadLoop_nil]
    simp
  | case2 received sched h b rest n ih =>
    rw [uploadLoop_cons filesize received b rest sched h]
    intro c hc
    rcases List.mem_cons.mp hc with hc | hc
    · subst hc
      have hle := (grantSize_le filesize received (b :: rest) (sched.headD BUFFER_SIZE)).2.1
      simp only [List.length_take]
      omega
    · exact ih c hc
  | case3 received s sched h =>
    rw [uploadLoop_stop filesize received s sched h]
    simp

theorem uploadLoop_flatten (filesize received : Nat) (s sched : List Nat) :
    (uploadLoop filesize received s sched).2.flatten =
      s.take ((uploadLoop filesize received s sched).1 - received) := by
  induction received, s, sched using uploadLoop.induct filesize with
  | case1 received sched h =>
    rw [uploadLoop_nil]
    simp
  | case2 received sched h b rest n ih =>
    rw [uploadLoop_cons filesize received b rest sched h]
    simp only [List.flatten_cons]
    unfold n at ih
    have hge := uploadLoop_received_ge filesize
      (received + grantSize filesize received (b :: rest) (sched.headD BUFFER_SIZE))
      ((b :: rest).drop (grantSize filesize received (b :: rest) (sched.headD BUFFER_SIZE)))
      sched.tail
    rw [ih]
    have hsplit :
        (uploadLoop filesize
            (received + grantSize filesize received (b :: rest) (sched.headD BUFFER_SIZE))
            ((b :: rest).drop (grantSize filesize received (b :: rest) (sched.headD BUFFER_SIZE)))
            sched.tail).1 - received =
          grantSize filesize received (b :: rest) (sched.headD BUFFER_SIZE) +
            ((uploadLoop filesize
              (received + grantSize filesize received (b :: rest) (sched.headD BUFFER_SIZE))
              ((b :: rest).drop (grantSize filesize received (b :: rest) (sched.headD BUFFER_SIZE)))
              sched.tail).1 -
             (received + grantSize filesize received (b :: rest) (sched.headD BUFFER_SIZE))) := by
      omega
    rw [hsplit, List.take_add]
  | case3 received s sched h =>
    rw [uploadLoop_stop filesize received s sched h]
    simp

/-! ## The connection handler `handle_client` (tcp_server.py lines 41-122)

The handler's observable behaviour is modelled as a trace of events:
JSON replies sent, the file written by an upload, the raw byte chunks
streamed by a download, and the final socket shutdown and close. -/

/-- The JSON control replies `_send_json` can emit. -/
inductive Reply where
  | ok                                    -- {'status': 'ok'}
  | okSize (filesize : Nat)               -- {'status': 'ok', 'filesize': n}
  | uploaded                              -- {'status': 'success', 'message': 'Uploaded'}
  | errorMsg (message : String)           -- {'status': 'error', 'message': m}
  | listing (count : Nat) (files : List String)  -- {'status': 'success', 'count': n, 'files': l}
  deriving Repr, DecidableEq

inductive TcpEvent where
  | reply (r : Reply)                     -- _send_json(conn, ...)
  | fileWrite (path : PyPath) (content : List Nat)  -- bytes written at save_path
  | sentBytes (chunk : List Nat)          -- conn.sendall(chunk) of file data
  | shutdown                              -- conn.shutdown(socket.SHUT_RDWR)
  | close                                 -- conn.close()
  deriving Repr, DecidableEq

def fileChunksAux : Nat → List Nat → List (List Nat)
  | 0, _ => []
  | fuel + 1, l =>
    if l = [] then []
    else l.take BUFFER_SIZE :: fileChunksAux fuel (l.drop BUFFER_SIZE)

/-- The download send loop (lines 94-99): read the file in
`BUFFER_SIZE` chunks and `sendall` each one until `f.read` returns
`b""`; `l.length` reads always suffice to reach end-of-file. -/
def fileChunks (l : List Nat) : List (List Nat) :=
  fileChunksAux l.length l

theorem fileChunksAux_flatten (fuel : Nat) :
    ∀ l : List Nat, l.length ≤ fuel → (fileChunksAux fuel l).flatten = l := by
  induction fuel with
  | zero =>
    intro l h
    have hl : l = [] := List.eq_nil_of_length_eq_zero (Nat.le_zero.mp h)
    subst hl
    rfl
  | succ fuel ih =>
    intro l h
    by_cases hl : l = []
    · subst hl
      rfl
    · simp only [fileChunksAux, if_neg hl, List.flatten_cons]
      rw [ih (l.drop BUFFER_SIZE) ?_]
      · exact List.take_append_drop _ l
      · have h1 : 1 ≤ l.length := by
          cases l with
          | nil => exact absurd rfl hl
          | cons a t => simp
        simp only [List.length_drop, BUFFER_SIZE]
        omega

theorem fileChunks_flatten (l : List Nat) : (fileChunks l).flatten = l :=
  fileChunksAux_flatten l.length l le_rfl

/-- Python `bytes.strip()` whitespace set. -/
def isAsciiSpace (b : Nat) : Bool :=
  b = 9 || b = 10 || b = 11 || b = 12 || b = 13 || b = 32

/-- `ready.strip()`: drop ASCII whitespace from both ends. -/
def stripBytes (l : List Nat) : List Nat :=
  ((l.dropWhile isAsciiSpace).reverse.dropWhile isAsciiSpace).reverse

/-- The five bytes of `b'READY'`. -/
def READY : List Nat := [82, 69, 65, 68, 89]

/-- Inputs a single TCP file-transfer connection consumes. -/
structure TcpInput where
  /-- result of `_recv_json(conn)`: the parsed first message, or the
  empty dict on an empty read or a JSON parse failure -/
  req : PyVal
  /-- bytes the peer sends (then closes) during an UPLOAD body -/
  stream : List Nat
  /-- per-`recv` delivery schedule for the upload body -/
  sched : List Nat
  /-- result of `conn.recv(16)` while waiting for the READY handshake -/
  ready : List Nat
  /-- the regular files below the upload root: name ↦ content -/
  fs : String → Option (List Nat)
  /-- directory listing used by LIST -/
  dirList : List String

/-- Exception text for `UPLOAD_DIR / filename` when `filename` is not a
string (a `TypeError`; the model fixes one representative text for
`str(e)`, which Python derives from the operand type). -/
def pathTypeError : String := "unsupported operand type(s) for /"

/-- The UPLOAD branch (lines 51-76): validate, reply ok, run the
receive loop, write the file, report success or incomplete.  Returns
the events emitted plus the text of an uncaught exception, if any. -/
def uploadBranch (fnameVal fsizeVal : PyVal) (stream sched : List Nat) :
    List TcpEvent × Option String :=
  match PyVal.pyInt fsizeVal with
  | .error e => ([], some e)              -- int(req.get('filesize', 0)) raised
  | .ok filesize =>
    if fnameVal.truthy = false ∨ filesize ≤ 0 then
      ([.reply (.errorMsg "Invalid upload request")], none)
    else
      match fnameVal with
      | .pystr name =>
        let res := uploadLoop filesize.toNat 0 stream sched
        ([.reply .ok,
          .fileWrite (uploadSavePath UPLOAD_DIR name) res.2.flatten,
          .reply (if res.1 = filesize.toNat then .uploaded
                  else .errorMsg "Incomplete upload")], none)
      | _ => ([.reply .ok], some pathTypeError)  -- ok was sent; UPLOAD_DIR / filename raised

/-- The DOWNLOAD branch (lines 78-101): build the path (raising on a
non-string filename), check existence, reply, then wait for READY and
stream the file in `BUFFER_SIZE` chunks. -/
def downloadBranch (fs : String → Option (List Nat)) (fnameVal : PyVal)
    (ready : List Nat) : List TcpEvent × Option String :=
  match fnameVal with
  | .pystr name =>
    match fs name with
    | none => ([.reply (.errorMsg "Not found")], none)
    | some content =>
      (.reply (.okSize content.length) ::
        (if ready ≠ [] ∧ stripBytes ready = READY then
          (fileChunks content).map TcpEvent.sentBytes
        else []), none)
  | _ => ([], some pathTypeError)         -- UPLOAD_DIR / filename raised

/-- Command dispatch (lines 44-108): events emitted by the `try` body
plus the text of an exception escaping it, if any. -/
def dispatch (inp : TcpInput) : List TcpEvent × Option String :=
  if inp.req.truthy = false then ([], none)  -- `if not req: return` (silent drop)
  else
    match inp.req with
    | .pydict d =>
      match PyVal.dictGet d "command" with
      | .pystr c =>
        if c = "UPLOAD" then
          -- filename = req.get('filename'); filesize = int(req.get('filesize', 0))
          uploadBranch (PyVal.dictGet d "filename")
            (PyVal.dictGetD d "filesize" (.pyint 0)) inp.stream inp.sched
        else if c = "DOWNLOAD" then
          downloadBranch inp.fs (PyVal.dictGet d "filename") inp.ready
        else if c = "LIST" then
          ([.reply (.listing inp.dirList.length inp.dirList)], none)
        else
          ([.reply (.errorMsg "Unknown command")], none)
      | _ =>                              -- cmd is not a string: no branch matches
        ([.reply (.errorMsg "Unknown command")], none)
    | _ =>                                -- truthy non-dict JSON: req.get raises
      ([], some "AttributeError: object has no attribute get")

/-- `handle_client`: run the dispatch under the `try`, send the
best-effort error reply from the `except` clause if an exception
escaped, then unconditionally shut down and close the socket. -/
def handle_client (inp : TcpInput) : List TcpEvent :=
  (dispatch inp).1 ++
    (match (dispatch inp).2 with
     | some e => [TcpEvent.reply (.errorMsg e)]
     | none => []) ++
    [TcpEvent.shutdown, TcpEvent.close]

/-! ## The listener `start_tcp_server` (tcp_server.py lines 125-175)

The listener's setup sequence is modelled as an event trace.  The
socket is bound and put in listening state (lines 139-142) before the
TLS certificate check (lines 145-150); on missing certificates the
socket is closed and the function returns without accepting anything. -/

inductive SrvEvent where
  | bindPort (port : Nat)   -- sock.bind((host, port))
  | listenSock              -- sock.listen(5)
  | loadCerts               -- context.load_cert_chain(cert, key)
  | acceptLoop              -- entering `while True: sock.accept()`
  | closeSock               -- sock.close()
  deriving Repr, DecidableEq

/-- `start_tcp_server(use_ssl)` with `certExists`/`keyExists` the
results of the two `os.path.exists` checks.  The accept loop runs
until interrupted; the trailing close is the `finally`. -/
def start_tcp_server (use_ssl certExists keyExists : Bool) (port : Nat) :
    List SrvEvent :=
  [SrvEvent.bindPort port, SrvEvent.listenSock] ++
    (if use_ssl then
      if certExists && keyExists then
        [SrvEvent.loadCerts, SrvEvent.acceptLoop, SrvEvent.closeSock]
      else
        [SrvEvent.closeSock]      -- "SSL certs not found"; sock.close(); return
    else
      [SrvEvent.acceptLoop, SrvEvent.closeSock])

/-! ## Radio broadcast engine (multicast_server.py)

The outer loop of `MulticastRadioServer.start` (lines 56-83) snapshots
the shared state under the lock, resolves the source, and runs one
streaming routine.  Each routine (`stream_wav_file`,
`stream_microphone`, `stream_dummy_audio`) wraps its whole body in
`try/except`, so an exception raised while streaming is printed inside
the routine and the routine returns; the outer loop then re-evaluates
the unchanged state. -/

inductive Routine where
  | rMic                    -- stream_microphone()
  | rWav                    -- stream_wav_file(audio_file)
  | rDummy                  -- stream_dummy_audio()
  deriving Repr, DecidableEq

/-- Environment facts the loop consults: `HAS_SD` (sounddevice import
succeeded) and `os.path.exists(audio_file)` for the snapshot's file. -/
structure RadioEnv where
  hasSD : Bool
  fileExists : Bool
  deriving Repr, DecidableEq

/-- Source resolution and routine selection (lines 62-80). -/
def chooseRoutine (env : RadioEnv) (source : String) : Routine :=
  let s := if source = "auto" then (if env.hasSD then "mic" else "wav") else source
  if s = "mic" then
    if env.hasSD then Routine.rMic else Routine.rDummy
  else if s = "wav" then
    if env.fileExists then Routine.rWav else Routine.rDummy
  else
    Routine.rDummy

/-- The body of a streaming routine, which may raise. -/
def routineBody (raises : Bool) : Except String Unit :=
  if raises then Except.error "stream error" else Except.ok ()

/-- Each streaming routine wraps its body in `try/except` (lines
92-153, 165-184, 188-207): the exception is printed and swallowed and
the routine returns normally. -/
def runRoutine (raises : Bool) : Unit :=
  match routineBody raises with
  | .ok u => u
  | .error _ => ()

structure IterResult where
  routine : Routine
  daemonContinues : Bool
  deriving Repr, DecidableEq

/-- One iteration of the outer `while self.running` loop for a state
snapshot `(source, env)`; `raises` says whether the selected routine's
body raises this iteration.  A caught routine error leaves the shared
state unchanged, so the iteration always hands control back to the
loop. -/
def radioIter (env : RadioEnv) (source : String) (raises : Bool) : IterResult :=
  let r := chooseRoutine env source
  let _ := runRoutine raises
  { routine := r, daemonContinues := true }

/-- The routines run over a sequence of iterations whose bodies
raise/return as `raisesList` prescribes, with no concurrent
`request_source` call (the state snapshot is the same each time). -/
def radioTrace (env : RadioEnv) (source : String) (raisesList : List Bool) :
    List Routine :=
  raisesList.map (fun b => (radioIter env source b).routine)

/-! ### `RadioState` and `request_source` (lines 22-30, 216-222) -/

structure RadioState where
  multicast_group : String
  port : Nat
  sockOpen : Bool           -- self.sock
  running : Bool
  audio_file : String
  source : String
  change_requested : Bool
  deriving Repr, DecidableEq

/--
```
def request_source(self, source, audio_file=None):
    with self._lock:
        if audio_file: self.audio_file = audio_file
        if source: self.source = source
        self._change_requested = True
```
-/
def request_source (st : RadioState) (source : String)
    (audio_file : Option String) : RadioState :=
  let st1 := match audio_file with
    | some a => if a = "" then st else { st with audio_file := a }
    | none => st
  let st2 := if source = "" then st1 else { st1 with source := source }
  { st2 with change_requested := true }

/-! ### The WAV chunk pipeline (`stream_wav_file`, lines 102-151)

`audioop` calls are modelled as free constructors over the chunk data,
so that the order of the conversions, the down-mix weights and the
threading of `rate_state` are part of the emitted term.  The
`rate_state` returned by `audioop.ratecv` is modelled as the list of
chunks it has consumed so far (opaque in the source, `None` before the
first call). -/

inductive AudioData where
  | raw (k : Nat)           -- wf.readframes(chunk_frames), chunk number k
  | lin2lin (d : AudioData) (width targetWidth : Nat)
  | tomono (d : AudioData) (width : Nat)
      (lfacNum lfacDen rfacNum rfacDen : Nat)  -- weights as exact fractions
  | ratecv (d : AudioData) (width channels fromRate toRate : Nat)
      (state : List AudioData)

structure AudioFmt where
  width : Nat
  channels : Nat
  rate : Nat
  deriving Repr, DecidableEq

/-- Normalisation of one chunk (lines 118-142): width conversion,
then down-mix, then rate conversion, each applied only when the
format differs from the target.  Returns the datagram payload and the
new `rate_state`. -/
def convertChunk (src tgt : AudioFmt) (st : List AudioData) (d : AudioData) :
    AudioData × List AudioData :=
  -- if out_width != target_width: out = audioop.lin2lin(out, out_width, target_width)
  let step1 : AudioData × Nat :=
    if src.width ≠ tgt.width then (.lin2lin d src.width tgt.width, tgt.width)
    else (d, src.width)
  -- if out_channels != target_channels:
  --     out = audioop.tomono(out, out_width, 0.5, 0.5) if out_channels > 1 else out
  let step2 : AudioData × Nat :=
    if src.channels ≠ tgt.channels then
      ((if 1 < src.channels then .tomono step1.1 step1.2 1 2 1 2 else step1.1),
        tgt.channels)
    else (step1.1, src.channels)
  -- if out_rate != target_rate:
  --     out, rate_state = audioop.ratecv(out, out_width, out_channels,
  --                                      out_rate, target_rate, rate_state)
  if src.rate ≠ tgt.rate then
    (.ratecv step2.1 step1.2 step2.2 src.rate tgt.rate st, step2.1 :: st)
  else
    (step2.1, st)

/-- The per-chunk loop from chunk number `k` on, with current
`rate_state` `st`, for `n` further chunks; each produced element is
sent as one UDP datagram (line 144). -/
def streamWavAux (src tgt : AudioFmt) (st : List AudioData) (k : Nat) :
    Nat → List AudioData
  | 0 => []
  | n + 1 =>
    (convertChunk src tgt st (.raw k)).1 ::
      streamWavAux src tgt (convertChunk src tgt st (.raw k)).2 (k + 1) n

/-- `stream_wav_file`: `rate_state = None` once per activation
(line 104), then the chunk loop; the datagrams sent for the first `n`
chunks. -/
def streamWav (src tgt : AudioFmt) (n : Nat) : List AudioData :=
  streamWavAux src tgt [] 0 n

/-! ## Voice relay (voice_server.py) -/

abbrev ConnId := Nat

/-- `struct.pack("!I", n)`: 4-byte big-endian length. -/
def u32be (n : Nat) : List Nat :=
  [n / 2 ^ 24 % 256, n / 2 ^ 16 % 256, n / 2 ^ 8 % 256, n % 256]

/-- `_send_packet`: 4-byte big-endian length prefix plus payload. -/
def framePacket (payload : List Nat) : List Nat :=
  u32be payload.length ++ payload

/-- The fan-out of one received payload (lines 102-105): for each peer
in the current membership snapshot of the sender's room, skipping the
sender itself, write the re-framed payload. -/
def relayFrame (snapshot : List ConnId) (sender : ConnId) (payload : List Nat) :
    List (ConnId × List Nat) :=
  (snapshot.filter (fun p => p ≠ sender)).map (fun p => (p, framePacket payload))

/-- Outcome of `_recv_join` (lines 49-61) plus the non-dict case: the
first framed message either registers the connection under a room key
or leaves it unregistered.  `none` models an empty first frame or a
`json.loads` failure. -/
inductive JoinOutcome where
  | registered (room : PyVal)
  | dropped

def recvJoinOutcome (msg : Option PyVal) : JoinOutcome :=
  match msg with
  | none => .dropped               -- `if not raw: return None` / parse failure
  | some (.pydict d) =>
    match PyVal.dictGet d "type" with
    | .pystr t =>
      if t = "join" then
        -- `if not data.get("room"): return None`
        if (PyVal.dictGet d "room").truthy then .registered (PyVal.dictGet d "room")
        else .dropped
      else .dropped
    | _ => .dropped                -- data.get("type") != "join"
  | some _ => .dropped             -- non-dict JSON: .get raises AttributeError,
                                   -- caught by handle_client, never registered

inductive VoiceEvent where
  | register (room : PyVal) (c : ConnId)          -- ROOMS.add(room, conn)
  | relayed (target : ConnId) (bytes : List Nat)  -- _send_packet(peer, data)
  | unregister (room : PyVal) (c : ConnId)        -- ROOMS.remove(room, conn)
  | shutdown
  | close

/-- The relay loop (lines 98-105) over the nonempty payloads read from
the sender, each paired with the membership snapshot
`ROOMS.peers(room)` current when it is relayed. -/
def relayEvents (c : ConnId) (frameSnaps : List (List Nat × List ConnId)) :
    List VoiceEvent :=
  frameSnaps.flatMap
    (fun fs => (relayFrame fs.2 c fs.1).map (fun t => VoiceEvent.relayed t.1 t.2))

/-- `handle_client` of the voice server (lines 88-116): join, relay
loop, then removal and close in the `finally`. -/
def voice_handle_client (c : ConnId) (msg : Option PyVal)
    (frameSnaps : List (List Nat × List ConnId)) : List VoiceEvent :=
  match recvJoinOutcome msg with
  | .dropped => [VoiceEvent.shutdown, VoiceEvent.close]  -- `room` still None in finally
  | .registered room =>
    VoiceEvent.register room c ::
      (relayEvents c frameSnaps ++
        [VoiceEvent.unregister room c, VoiceEvent.shutdown, VoiceEvent.close])

/-! ## Claim theorems -/

/-- C9: every call to `request_source(source, audio_file)` sets the
change-requested flag to `true`; it updates the stored source kind only
when `source` is truthy and the stored audio file path only when
`audio_file` is truthy (a falsy argument leaves the field unchanged),
and it modifies no other field of the radio state (multicast group,
port, running flag, socket). -/
theorem request_source_effect (st : RadioState) (source : String)
    (audio_file : Option String) :
    (request_source st source audio_file).change_requested = true ∧
    (request_source st source audio_file).source =
      (if source = "" then st.source else source) ∧
    (request_source st source audio_file).audio_file =
      (match audio_file with
       | some a => if a = "" then st.audio_file else a
       | none => st.audio_file) ∧
    (request_source st source audio_file).multicast_group = st.multicast_group ∧
    (request_source st source audio_file).port = st.port ∧
    (request_source st source audio_file).running = st.running ∧
    (request_source st source audio_file).sockOpen = st.sockOpen := by
  unfold request_source
  rcases audio_file with _ | a
  · by_cases hs : source = "" <;> simp [hs]
  · by_cases hs : source = "" <;> by_cases ha : a = "" <;> simp [hs, ha]

/-- C6 counterexample: starting the TLS listener with no certificate
or key file on disk does bind (and listen on) its port before the
certificate check, contradicting "no port is ever bound by the TLS
listener". -/
theorem tls_listener_binds_port :
    SrvEvent.bindPort 9001 ∈ start_tcp_server true false false 9001 ∧
    start_tcp_server true false false 9001 =
      [SrvEvent.bindPort 9001, SrvEvent.listenSock, SrvEvent.closeSock] := by
  decide

/-- C6 (amended): if the TLS file-transfer listener is started when
the configured certificate or key file does not exist, it binds and
listens on its port but then closes the socket and returns without
serving any connection and without loading certificates (no crash:
the function runs to completion), and the plaintext listener is
unaffected (it reaches its accept loop regardless of the
certificate files). -/
theorem tls_listener_missing_certs (certExists keyExists : Bool)
    (sslPort plainPort : Nat)
    (h : ¬ (certExists = true ∧ keyExists = true)) :
    start_tcp_server true certExists keyExists sslPort =
      [SrvEvent.bindPort sslPort, SrvEvent.listenSock, SrvEvent.closeSock] ∧
    SrvEvent.acceptLoop ∉ start_tcp_server true certExists keyExists sslPort ∧
    SrvEvent.loadCerts ∉ start_tcp_server true certExists keyExists sslPort ∧
    SrvEvent.acceptLoop ∈ start_tcp_server false certExists keyExists plainPort := by
  have hck : (certExists && keyExists) = false := by
    cases certExists <;> cases keyExists <;> simp_all
  refine ⟨?_, ?_, ?_, ?_⟩ <;> simp [start_tcp_server, hck]

theorem tls_listener_missing_certs_witness :
    ¬ ((false : Bool) = true ∧ (true : Bool) = true) ∧
    (start_tcp_server true false true 9001 =
        [SrvEvent.bindPort 9001, SrvEvent.listenSock, SrvEvent.closeSock] ∧
      SrvEvent.acceptLoop ∉ start_tcp_server true false true 9001 ∧
      SrvEvent.loadCerts ∉ start_tcp_server true false true 9001 ∧
      SrvEvent.acceptLoop ∈ start_tcp_server false false true 9000) :=
  ⟨by decide, tls_listener_missing_certs false true 9001 9000 (by decide)⟩

/-- C4: every framed audio payload received from a joined voice
connection is written, re-framed with its 4-byte big-endian length
prefix, to every connection in the current snapshot of the room's
member set except the sender, and is never delivered back to the
sender. -/
theorem voice_relay_fanout (snapshot : List ConnId) (sender : ConnId)
    (payload : List Nat) :
    (∀ q ∈ relayFrame snapshot sender payload,
      q.1 ∈ snapshot ∧ q.1 ≠ sender ∧ q.2 = framePacket payload) ∧
    (∀ p ∈ snapshot, p ≠ sender →
      (p, framePacket payload) ∈ relayFrame snapshot sender payload) ∧
    (∀ bytes, (sender, bytes) ∉ relayFrame snapshot sender payload) := by
  refine ⟨?_, ?_, ?_⟩
  · intro q hq
    simp only [relayFrame, List.mem_map, List.mem_filter] at hq
    obtain ⟨p, ⟨hp, hps⟩, rfl⟩ := hq
    exact ⟨hp, by simpa using hps, rfl⟩
  · intro p hp hps
    simp only [relayFrame, List.mem_map, List.mem_filter]
    exact ⟨p, ⟨hp, by simpa using hps⟩, rfl⟩
  · intro bytes hmem
    simp only [relayFrame, List.mem_map, List.mem_filter, Prod.mk.injEq] at hmem
    obtain ⟨p, ⟨hp, hps⟩, hpe, hbe⟩ := hmem
    subst hpe
    simp at hps

theorem voice_relay_fanout_witness :
    (2 : ConnId) ∈ [1, 2, 3] ∧ (2 : ConnId) ≠ 1 ∧
    ((2 : ConnId), framePacket [5, 6]) ∈ relayFrame [1, 2, 3] 1 [5, 6] :=
  ⟨by decide, by decide,
    (voice_relay_fanout [1, 2, 3] 1 [5, 6]).2.1 2 (by decide) (by decide)⟩

/-- C3 counterexample: with source `"wav"` and the audio file present,
an unexpected exception inside the WAV streaming routine does not make
the engine fall back to the dummy routine — the routine selected on
the iteration after the raising one is still the WAV routine. -/
theorem radio_exception_not_dummy :
    radioTrace ⟨false, true⟩ "wav" [true, false] =
      [Routine.rWav, Routine.rWav] ∧
    Routine.rWav ≠ Routine.rDummy := by
  constructor
  · rfl
  · decide

/-- C3 (amended): when a source is unavailable (missing WAV file for
`"wav"`, no capture device for `"mic"`, neither for `"auto"`), the
outer loop runs the dummy streaming routine; an unexpected exception
inside a streaming routine is caught inside that routine, the loop
continues iterating with the unchanged state — re-running the routine
selected by the current source, which need not be the dummy one — and
the daemon never exits because of a source error. -/
theorem radio_engine_resilient (env : RadioEnv) (source : String)
    (raises : Bool) (rs : List Bool) :
    (radioIter env source raises).daemonContinues = true ∧
    (env.hasSD = false →
      (radioIter env "mic" raises).routine = Routine.rDummy) ∧
    (env.fileExists = false →
      (radioIter env "wav" raises).routine = Routine.rDummy) ∧
    (env.hasSD = false → env.fileExists = false →
      (radioIter env "auto" raises).routine = Routine.rDummy) ∧
    (radioIter env source raises).routine = chooseRoutine env source ∧
    radioTrace env source (raises :: rs) =
      chooseRoutine env source :: radioTrace env source rs := by
  refine ⟨rfl, ?_, ?_, ?_, rfl, rfl⟩
  · intro hsd
    simp [radioIter, chooseRoutine, hsd]
  · intro hfe
    simp [radioIter, chooseRoutine, hfe]
  · intro hsd hfe
    simp [radioIter, chooseRoutine, hsd, hfe]

theorem radio_engine_resilient_witness :
    (radioIter ⟨false, false⟩ "wav" true).daemonContinues = true ∧
    (radioIter ⟨false, false⟩ "wav" true).routine = Routine.rDummy :=
  ⟨(radio_engine_resilient ⟨false, false⟩ "wav" true []).1,
    (radio_engine_resilient ⟨false, false⟩ "wav" true []).2.2.1 rfl⟩

theorem register_not_in_relay (c : ConnId) (room : PyVal)
    (frameSnaps : List (List Nat × List ConnId)) :
    VoiceEvent.register room c ∉ relayEvents c frameSnaps := by
  simp [relayEvents, relayFrame, List.mem_flatMap, List.mem_map]

theorem register_mem_iff (c : ConnId) (msg : Option PyVal)
    (frameSnaps : List (List Nat × List ConnId)) (room : PyVal) :
    VoiceEvent.register room c ∈ voice_handle_client c msg frameSnaps ↔
      recvJoinOutcome msg = JoinOutcome.registered room := by
  rcases hout : recvJoinOutcome msg with r | _
  · simp only [voice_handle_client, hout]
    constructor
    · intro hmem
      rcases List.mem_cons.mp hmem with heq | hmem
      · rcases heq with ⟨⟩
        rfl
      · rcases List.mem_append.mp hmem with hmem | hmem
        · exact absurd hmem (register_not_in_relay c room frameSnaps)
        · simp at hmem
    · intro heq
      rcases heq with ⟨⟩
      exact List.mem_cons_self _ _
  · simp [voice_handle_client, hout]

/-- C5: a voice connection is added to a room's member set iff its
first framed message parses as JSON to an object whose `"type"` field
equals `"join"` and whose `"room"` field is truthy (non-empty); any
connection whose first message fails these checks (unparseable JSON,
non-object JSON, wrong type, missing or empty room) is closed without
ever being registered in the room registry. -/
theorem voice_join_registration (c : ConnId) (msg : Option PyVal)
    (frameSnaps : List (List Nat × List ConnId)) :
    ((∃ room, VoiceEvent.register room c ∈ voice_handle_client c msg frameSnaps) ↔
      (∃ d, msg = some (.pydict d) ∧
        PyVal.dictGet d "type" = .pystr "join" ∧
        (PyVal.dictGet d "room").truthy = true)) ∧
    ((¬ ∃ d, msg = some (.pydict d) ∧
        PyVal.dictGet d "type" = .pystr "join" ∧
        (PyVal.dictGet d "room").truthy = true) →
      voice_handle_client c msg frameSnaps =
        [VoiceEvent.shutdown, VoiceEvent.close]) := by
  have hvalid : (∃ room, recvJoinOutcome msg = JoinOutcome.registered room) ↔
      (∃ d, msg = some (.pydict d) ∧
        PyVal.dictGet d "type" = .pystr "join" ∧
        (PyVal.dictGet d "room").truthy = true) := by
    constructor
    · rintro ⟨room, hro⟩
      rcases msg with _ | v
      · simp [recvJoinOutcome] at hro
      · cases v with
        | pydict d =>
          refine ⟨d, rfl, ?_, ?_⟩ <;>
          · rcases htype : PyVal.dictGet d "type" with _ | _ | _ | t | _ | _ <;>
              simp only [recvJoinOutcome, htype] at hro <;>
              first
              | cases hro
              | (by_cases ht : t = "join" <;>
                  by_cases hr : (PyVal.dictGet d "room").truthy <;>
                  simp only [ht, if_true, if_false, hr] at hro ⊢ <;>
                  first | rfl | cases hro)
        | pynone => simp [recvJoinOutcome] at hro
        | pybool b => simp [recvJoinOutcome] at hro
        | pyint n => simp [recvJoinOutcome] at hro
        | pystr s => simp [recvJoinOutcome] at hro
        | pylist l => simp [recvJoinOutcome] at hro
    · rintro ⟨d, rfl, htype, hroom⟩
      exact ⟨PyVal.dictGet d "room", by simp [recvJoinOutcome, htype, hroom]⟩
  constructor
  · constructor
    · rintro ⟨room, hmem⟩
      exact hvalid.mp ⟨room, (register_mem_iff c msg frameSnaps room).mp hmem⟩
    · intro hval
      obtain ⟨room, hro⟩ := hvalid.mpr hval
      exact ⟨room, (register_mem_iff c msg frameSnaps room).mpr hro⟩
  · intro hval
    rcases hout : recvJoinOutcome msg with r | _
    · exact absurd (hvalid.mp ⟨r, hout⟩) hval
    · simp [voice_handle_client, hout]

theorem voice_join_registration_witness :
    (∃ room, VoiceEvent.register room 7 ∈
      voice_handle_client 7
        (some (.pydict [("type", .pystr "join"), ("room", .pystr "r1"),
          ("username", .pystr "u")])) []) ∧
    voice_handle_client 7 (some (.pydict [("type", .pystr "chat")])) [] =
      [VoiceEvent.shutdown, VoiceEvent.close] :=
  ⟨(voice_join_registration 7
      (some (.pydict [("type", .pystr "join"), ("room", .pystr "r1"),
        ("username", .pystr "u")])) []).1.mpr
      ⟨_, rfl, rfl, rfl⟩,
    (voice_join_registration 7 (some (.pydict [("type", .pystr "chat")])) []).2
      (by rintro ⟨d, hd, htype, hroom⟩; cases hd; simp [PyVal.dictGet, PyVal.dictFind] at htype)⟩

theorem uploadLoop_short (filesize received : Nat) (s sched : List Nat) :
    s.length ≤ filesize - received →
    (uploadLoop filesize received s sched).1 = received + s.length := by
  induction received, s, sched using uploadLoop.induct filesize with
  | case1 received sched h =>
    intro _
    rw [uploadLoop_nil]
    simp
  | case2 received sched h b rest n ih =>
    intro hlen
    rw [uploadLoop_cons filesize received b rest sched h]
    unfold n at ih
    have hle := grantSize_le filesize received (b :: rest) (sched.headD BUFFER_SIZE)
    have hdrop :
        ((b :: rest).drop
          (grantSize filesize received (b :: rest) (sched.headD BUFFER_SIZE))).length =
          (b :: rest).length -
            grantSize filesize received (b :: rest) (sched.headD BUFFER_SIZE) := by
      simp
    rw [ih (by omega)]
    omega
  | case3 received s sched h =>
    intro hlen
    rw [uploadLoop_stop filesize received s sched h]
    have : s.length = 0 := by omega
    omega

/-- The first JSON message of an UPLOAD session. -/
def uploadReq (name : String) (filesize : Int) : PyVal :=
  .pydict [("command", .pystr "UPLOAD"), ("filename", .pystr name),
    ("filesize", .pyint filesize)]

theorem uploadBranch_accept (name : String) (filesize : Nat)
    (stream sched : List Nat) (h1 : name ≠ "") (h2 : 0 < filesize) :
    uploadBranch (.pystr name) (.pyint (filesize : Int)) stream sched =
      ([.reply .ok,
        .fileWrite (uploadSavePath UPLOAD_DIR name)
          (uploadLoop filesize 0 stream sched).2.flatten,
        .reply (if (uploadLoop filesize 0 stream sched).1 = filesize then .uploaded
                else .errorMsg "Incomplete upload")], none) := by
  unfold uploadBranch
  have hc : ¬ ((PyVal.pystr name).truthy = false ∨ (filesize : Int) ≤ 0) := by
    push_neg
    refine ⟨?_, by omega⟩
    simpa [PyVal.truthy] using h1
  simp only [PyVal.pyInt, if_neg hc, Int.toNat_natCast]

/-- C1: for every UPLOAD session accepted with a non-empty filename
and declared filesize > 0, the server reads at most `filesize` bytes
in chunks of at most 4096 bytes, and replies success iff the number of
bytes received equals the declared filesize; if the peer closes early
after `k < filesize` bytes, the loop ends without raising, the server
replies `{"status":"error","message":"Incomplete upload"}`, and the
`k`-byte partial file remains on disk. -/
theorem upload_session (name : String) (filesize : Nat)
    (stream sched ready : List Nat) (fs : String → Option (List Nat))
    (dirList : List String) (h1 : name ≠ "") (h2 : 0 < filesize) :
    (uploadLoop filesize 0 stream sched).1 ≤ filesize ∧
    (∀ c ∈ (uploadLoop filesize 0 stream sched).2, c.length ≤ BUFFER_SIZE) ∧
    handle_client ⟨uploadReq name (filesize : Int), stream, sched, ready, fs, dirList⟩ =
      [.reply .ok,
       .fileWrite (uploadSavePath UPLOAD_DIR name)
         (uploadLoop filesize 0 stream sched).2.flatten,
       .reply (if (uploadLoop filesize 0 stream sched).1 = filesize then .uploaded
               else .errorMsg "Incomplete upload"),
       .shutdown, .close] ∧
    ((uploadLoop filesize 0 stream sched).1 = filesize ↔
      TcpEvent.reply .uploaded ∈
        handle_client ⟨uploadReq name (filesize : Int), stream, sched, ready, fs, dirList⟩) ∧
    (stream.length < filesize →
      (uploadLoop filesize 0 stream sched).1 = stream.length ∧
      (uploadLoop filesize 0 stream sched).2.flatten = stream) := by
  have hdisp :
      dispatch ⟨uploadReq name (filesize : Int), stream, sched, ready, fs, dirList⟩ =
        uploadBranch (.pystr name) (.pyint (filesize : Int)) stream sched := by
    simp [dispatch, uploadReq, PyVal.dictGet, PyVal.dictGetD, PyVal.dictFind,
      PyVal.truthy]
  have htrace :
      handle_client ⟨uploadReq name (filesize : Int), stream, sched, ready, fs, dirList⟩ =
        [.reply .ok,
         .fileWrite (uploadSavePath UPLOAD_DIR name)
           (uploadLoop filesize 0 stream sched).2.flatten,
         .reply (if (uploadLoop filesize 0 stream sched).1 = filesize then .uploaded
                 else .errorMsg "Incomplete upload"),
         .shutdown, .close] := by
    unfold handle_client
    rw [hdisp, uploadBranch_accept name filesize stream sched h1 h2]
    simp
  refine ⟨uploadLoop_received_le filesize 0 stream sched (Nat.zero_le _),
    uploadLoop_chunk_le filesize 0 stream sched, htrace, ?_, ?_⟩
  · rw [htrace]
    by_cases hif : (uploadLoop filesize 0 stream sched).1 = filesize <;>
      simp [hif]
  · intro hshort
    have hr := uploadLoop_short filesize 0 stream sched (by omega)
    have hf := uploadLoop_flatten filesize 0 stream sched
    refine ⟨by omega, ?_⟩
    rw [hf, hr]
    simp

theorem upload_session_witness :
    (uploadLoop 3 0 [1, 2] []).1 ≤ 3 ∧
    (∀ c ∈ (uploadLoop 3 0 [1, 2] []).2, c.length ≤ BUFFER_SIZE) ∧
    handle_client ⟨uploadReq "a.bin" ((3 : Nat) : Int), [1, 2], [], [],
        fun _ => none, []⟩ =
      [.reply .ok,
       .fileWrite (uploadSavePath UPLOAD_DIR "a.bin")
         (uploadLoop 3 0 [1, 2] []).2.flatten,
       .reply (if (uploadLoop 3 0 [1, 2] []).1 = 3 then .uploaded
               else .errorMsg "Incomplete upload"),
       .shutdown, .close] ∧
    ((uploadLoop 3 0 [1, 2] []).1 = 3 ↔
      TcpEvent.reply .uploaded ∈
        handle_client ⟨uploadReq "a.bin" ((3 : Nat) : Int), [1, 2], [], [],
          fun _ => none, []⟩) ∧
    ([1, 2].length < 3 →
      (uploadLoop 3 0 [1, 2] []).1 = [1, 2].length ∧
      (uploadLoop 3 0 [1, 2] []).2.flatten = [1, 2]) :=
  upload_session "a.bin" 3 [1, 2] [] [] (fun _ => none) []
    (by decide) (by decide)

theorem normComps_no_ddot (ab : Bool) (cs : List String)
    (h : ∀ c ∈ cs, c ≠ "..") :
    ∀ stack, normComps ab stack cs = stack.reverse ++ cs.filter (fun c => c ≠ ".") := by
  induction cs with
  | nil =>
    intro stack
    simp [normComps]
  | cons c rest ih =>
    intro stack
    have hdd : c ≠ ".." := h c (List.mem_cons_self c rest)
    have hrest : ∀ x ∈ rest, x ≠ ".." := fun x hx => h x (List.mem_cons_of_mem _ hx)
    by_cases hdot : c = "."
    · subst hdot
      simp only [normComps, if_pos rfl]
      rw [ih hrest stack]
      simp
    · simp only [normComps, if_neg hdot, if_neg hdd]
      rw [ih hrest (c :: stack)]
      simp [hdot]

theorem startsList_append (a b : List String) : startsList a (a ++ b) = true := by
  induction a with
  | nil => rfl
  | cons x xs ih => simp [startsList, ih]

/-- C2 counterexample: an UPLOAD whose client-supplied filename is
`"../secret"` is written at `UPLOAD_DIR / "../secret"`, which the
operating system resolves to a location outside the upload root — the
code applies no sanitisation to the filename. -/
theorem upload_path_escape :
    uploadSavePath UPLOAD_DIR "../secret" =
      ⟨false, ["static", "uploads", "..", "secret"]⟩ ∧
    isUnder UPLOAD_DIR (uploadSavePath UPLOAD_DIR "../secret") = false := by
  constructor <;> rfl

/-- C2 (amended): for every accepted UPLOAD command whose
client-supplied filename is relative and contains no `..` component,
the file the server writes is located under the configured upload
root; for filenames with `..` components or absolute filenames the
write can escape the root (see the counterexample). -/
theorem upload_path_contained (filename : String)
    (h1 : (parsePathStr filename).absolute = false)
    (h2 : ∀ c ∈ (parsePathStr filename).comps, c ≠ "..") :
    isUnder UPLOAD_DIR (uploadSavePath UPLOAD_DIR filename) = true := by
  have hjoin : uploadSavePath UPLOAD_DIR filename =
      ⟨false, ["static", "uploads"] ++ (parsePathStr filename).comps⟩ := by
    unfold uploadSavePath pathJoin
    rw [h1]
    rfl
  rw [hjoin]
  have hall : ∀ c ∈ ["static", "uploads"] ++ (parsePathStr filename).comps,
      c ≠ ".." := by
    intro c hc
    rcases List.mem_append.mp hc with hc | hc
    · simp at hc
      rcases hc with rfl | rfl <;> decide
    · exact h2 c hc
  have hnorm := normComps_no_ddot false
    (["static", "uploads"] ++ (parsePathStr filename).comps) hall []
  have hq : normalizePath ⟨false, ["static", "uploads"] ++ (parsePathStr filename).comps⟩ =
      ⟨false, ["static", "uploads"] ++
        (parsePathStr filename).comps.filter (fun c => c ≠ ".")⟩ := by
    simp only [normalizePath]
    rw [hnorm, List.filter_append]
    rfl
  have hroot : normalizePath UPLOAD_DIR = ⟨false, ["static", "uploads"]⟩ := rfl
  unfold isUnder
  rw [hq, hroot]
  simp only [beq_self_eq_true, Bool.true_and]
  exact startsList_append ["static", "uploads"] _

theorem upload_path_contained_witness :
    isUnder UPLOAD_DIR (uploadSavePath UPLOAD_DIR "photos/cat.png") = true :=
  upload_path_contained "photos/cat.png" (by decide) (by decide)

/-- The first JSON message of a DOWNLOAD session. -/
def downloadReq (name : String) : PyVal :=
  .pydict [("command", .pystr "DOWNLOAD"), ("filename", .pystr name)]

theorem downloadBranch_notfound (fs : String → Option (List Nat)) (name : String)
    (ready : List Nat) (h : fs name = none) :
    downloadBranch fs (.pystr name) ready =
      ([.reply (.errorMsg "Not found")], none) := by
  simp only [downloadBranch]
  rw [h]

theorem downloadBranch_found (fs : String → Option (List Nat)) (name : String)
    (ready : List Nat) (content : List Nat) (h : fs name = some content) :
    downloadBranch fs (.pystr name) ready =
      (.reply (.okSize content.length) ::
        (if ready ≠ [] ∧ stripBytes ready = READY then
          (fileChunks content).map TcpEvent.sentBytes
        else []), none) := by
  simp only [downloadBranch]
  rw [h]

/-- C7 counterexample: a peer whose handshake message is `b"READY\n"`
— different from the literal `b"READY"` — still receives the file
bytes, because the code compares `ready.strip()` (tcp_server.py line
90), not the received bytes themselves. -/
theorem download_ready_strip :
    handle_client ⟨downloadReq "a.txt", [], [], [82, 69, 65, 68, 89, 10],
        (fun n => if n = "a.txt" then some [7, 8, 9] else none), []⟩ =
      [.reply (.okSize 3), .sentBytes [7, 8, 9], .shutdown, .close] ∧
    [82, 69, 65, 68, 89, 10] ≠ READY := by
  constructor
  · rfl
  · decide

/-- C7 (amended): a DOWNLOAD naming a file that does not exist under
the upload root gets `{"status":"error","message":"Not found"}` and no
file bytes; if the file exists the server replies
`{"status":"ok","filesize":N}` with `N` the file's byte size and then
streams the file's bytes verbatim with no extra framing, but only
after receiving a handshake that is nonempty and, after stripping
ASCII whitespace from both ends, equals the literal `READY` — if the
handshake is absent, or differs even after stripping, no file bytes
are sent. -/
theorem download_semantics (name : String) (ready stream sched : List Nat)
    (fs : String → Option (List Nat)) (dirList : List String) :
    (fs name = none →
      handle_client ⟨downloadReq name, stream, sched, ready, fs, dirList⟩ =
        [.reply (.errorMsg "Not found"), .shutdown, .close]) ∧
    (∀ content, fs name = some content →
      handle_client ⟨downloadReq name, stream, sched, ready, fs, dirList⟩ =
        .reply (.okSize content.length) ::
          ((if ready ≠ [] ∧ stripBytes ready = READY then
              (fileChunks content).map TcpEvent.sentBytes
            else []) ++ [.shutdown, .close]) ∧
      (fileChunks content).flatten = content) := by
  have hdisp : dispatch ⟨downloadReq name, stream, sched, ready, fs, dirList⟩ =
      downloadBranch fs (.pystr name) ready := by
    simp [dispatch, downloadReq, PyVal.dictGet, PyVal.dictFind, PyVal.truthy]
  constructor
  · intro hnone
    unfold handle_client
    rw [hdisp, downloadBranch_notfound fs name ready hnone]
    rfl
  · intro content hsome
    refine ⟨?_, fileChunks_flatten content⟩
    unfold handle_client
    rw [hdisp, downloadBranch_found fs name ready content hsome]
    simp

theorem download_semantics_witness :
    handle_client ⟨downloadReq "b.txt", [], [], READY,
        (fun n => if n = "b.txt" then some [1, 2] else none), []⟩ =
      .reply (.okSize [1, 2].length) ::
        ((if READY ≠ [] ∧ stripBytes READY = READY then
            (fileChunks [1, 2]).map TcpEvent.sentBytes
          else []) ++ [.shutdown, .close]) ∧
    (fileChunks [1, 2]).flatten = [1, 2] :=
  (download_semantics "b.txt" READY [] []
      (fun n => if n = "b.txt" then some [1, 2] else none) []).2 [1, 2] (by decide)

/-- C10: a DOWNLOAD whose `"filename"` field is missing produces
neither the "Not found" reply nor the "Unknown command" reply nor a
silent drop: `UPLOAD_DIR / filename` raises a `TypeError`, the
per-connection exception handler sends a best-effort
`{"status":"error","message":<exception text>}` reply, no file bytes
are sent, and the connection is still shut down and closed. -/
theorem download_missing_filename (stream sched ready : List Nat)
    (fs : String → Option (List Nat)) (dirList : List String) :
    handle_client ⟨.pydict [("command", .pystr "DOWNLOAD")], stream, sched, ready,
        fs, dirList⟩ =
      [.reply (.errorMsg pathTypeError), .shutdown, .close] ∧
    (∀ b, TcpEvent.sentBytes b ∉
      handle_client ⟨.pydict [("command", .pystr "DOWNLOAD")], stream, sched, ready,
        fs, dirList⟩) ∧
    TcpEvent.reply (.errorMsg "Not found") ∉
      handle_client ⟨.pydict [("command", .pystr "DOWNLOAD")], stream, sched, ready,
        fs, dirList⟩ ∧
    TcpEvent.reply (.errorMsg "Unknown command") ∉
      handle_client ⟨.pydict [("command", .pystr "DOWNLOAD")], stream, sched, ready,
        fs, dirList⟩ ∧
    TcpEvent.shutdown ∈
      handle_client ⟨.pydict [("command", .pystr "DOWNLOAD")], stream, sched, ready,
        fs, dirList⟩ ∧
    TcpEvent.close ∈
      handle_client ⟨.pydict [("command", .pystr "DOWNLOAD")], stream, sched, ready,
        fs, dirList⟩ := by
  have htrace : handle_client ⟨.pydict [("command", .pystr "DOWNLOAD")], stream,
      sched, ready, fs, dirList⟩ =
      [.reply (.errorMsg pathTypeError), .shutdown, .close] := rfl
  rw [htrace]
  refine ⟨rfl, ?_, ?_, ?_, ?_, ?_⟩ <;> simp [pathTypeError]

/-- The data a chunk holds just before rate conversion, when the
source differs from the target in width and channel count: width
conversion first, then the equal-weight (1/2, 1/2) down-mix. -/
def preChunk (src tgt : AudioFmt) (i : Nat) : AudioData :=
  .tomono (.lin2lin (.raw i) src.width tgt.width) tgt.width 1 2 1 2

/-- The `rate_state` handed to `audioop.ratecv` for chunk `i`: all
previously converted chunks, most recent first; `[]` models the
`rate_state = None` initialisation done once per file activation. -/
def carriedState (src tgt : AudioFmt) (i : Nat) : List AudioData :=
  ((List.range i).map (preChunk src tgt)).reverse

theorem convertChunk_raw (src tgt : AudioFmt) (hw : src.width ≠ tgt.width)
    (hc : src.channels ≠ tgt.channels) (hc1 : 1 < src.channels)
    (hr : src.rate ≠ tgt.rate) (st : List AudioData) (i : Nat) :
    convertChunk src tgt st (.raw i) =
      (.ratecv (preChunk src tgt i) tgt.width tgt.channels src.rate tgt.rate st,
       preChunk src tgt i :: st) := by
  simp [convertChunk, preChunk, hw, hc, hc1, hr]

theorem streamWavAux_closed (src tgt : AudioFmt) (hw : src.width ≠ tgt.width)
    (hc : src.channels ≠ tgt.channels) (hc1 : 1 < src.channels)
    (hr : src.rate ≠ tgt.rate) :
    ∀ (n k : Nat) (st : List AudioData),
      streamWavAux src tgt st k n = (List.range n).map (fun j =>
        .ratecv (preChunk src tgt (k + j)) tgt.width tgt.channels src.rate tgt.rate
          (((List.range j).map (fun t => preChunk src tgt (k + t))).reverse ++ st)) := by
  intro n
  induction n with
  | zero =>
    intro k st
    rfl
  | succ n ih =>
    intro k st
    rw [streamWavAux, convertChunk_raw src tgt hw hc hc1 hr st k]
    dsimp only
    rw [ih (k + 1) (preChunk src tgt k :: st), List.range_succ_eq_map]
    simp only [List.map_cons, List.map_map, Function.comp_def]
    congr 1
    apply List.map_congr_left
    intro a _
    have h1 : k + 1 + a = k + (a + 1) := by omega
    have hmap : (List.range a).map (fun t => preChunk src tgt (k + 1 + t)) =
        (List.range a).map (fun t => preChunk src tgt (k + (t + 1))) := by
      apply List.map_congr_left
      intro t _
      have h2 : k + 1 + t = k + (t + 1) := by omega
      rw [h2]
    rw [h1, List.range_succ_eq_map]
    simp only [List.map_cons, List.map_map, List.reverse_cons, List.append_assoc,
      List.singleton_append, Nat.add_zero, Function.comp_def]
    rw [hmap]

/-- C8: in the WAV streaming routine, when the source format differs
from the configured output format in sample width, channel count
(with a multi-channel source) and sample rate, every chunk is
converted in this order — sample width to the target width, then
down-mix to mono by averaging channels with equal 1/2 weights (not by
dropping a channel), then rate conversion — using a rate-conversion
state that is initialised once per file activation and carried from
chunk to chunk, never reset; each converted chunk is one element of
the emitted datagram sequence. -/
theorem wav_pipeline_order (src tgt : AudioFmt) (hw : src.width ≠ tgt.width)
    (hc : src.channels ≠ tgt.channels) (hc1 : 1 < src.channels)
    (hr : src.rate ≠ tgt.rate) (n : Nat) :
    streamWav src tgt n = (List.range n).map (fun i =>
      AudioData.ratecv (preChunk src tgt i) tgt.width tgt.channels src.rate tgt.rate
        (carriedState src tgt i)) ∧
    (streamWav src tgt n).length = n ∧
    carriedState src tgt 0 = [] ∧
    (∀ i, carriedState src tgt (i + 1) =
      preChunk src tgt i :: carriedState src tgt i) := by
  have hmain : streamWav src tgt n = (List.range n).map (fun i =>
      AudioData.ratecv (preChunk src tgt i) tgt.width tgt.channels src.rate tgt.rate
        (carriedState src tgt i)) := by
    unfold streamWav
    rw [streamWavAux_closed src tgt hw hc hc1 hr n 0 []]
    apply List.map_congr_left
    intro j hj
    simp [carriedState]
  refine ⟨hmain, ?_, rfl, ?_⟩
  · rw [hmain]
    simp
  · intro i
    unfold carriedState
    rw [List.range_succ]
    simp

theorem wav_pipeline_order_witness :
    streamWav ⟨1, 2, 8000⟩ ⟨2, 1, 16000⟩ 2 = (List.range 2).map (fun i =>
      AudioData.ratecv (preChunk ⟨1, 2, 8000⟩ ⟨2, 1, 16000⟩ i) 2 1 8000 16000
        (carriedState ⟨1, 2, 8000⟩ ⟨2, 1, 16000⟩ i)) ∧
    (streamWav ⟨1, 2, 8000⟩ ⟨2, 1, 16000⟩ 2).length = 2 ∧
    carriedState ⟨1, 2, 8000⟩ ⟨2, 1, 16000⟩ 0 = [] ∧
    (∀ i, carriedState ⟨1, 2, 8000⟩ ⟨2, 1, 16000⟩ (i + 1) =
      preChunk ⟨1, 2, 8000⟩ ⟨2, 1, 16000⟩ i ::
        carriedState ⟨1, 2, 8000⟩ ⟨2, 1, 16000⟩ i) :=
  wav_pipeline_order ⟨1, 2, 8000⟩ ⟨2, 1, 16000⟩ (by decide) (by decide)
    (by decide) (by decide) 2

end FileShare
